import Mathlib

/-!
Shallow embedding of the schema-driven collection-to-report pipeline of the
WLA Web Page SEO Toolset bookmarklet (src/unnamed/part_001, the current
version of the classes `ListofObj_Base`, `ListofObj_to_Table` and
`ListofObj_to_DelimitedText`, and the helper `resolvePath`).

JavaScript strings are modelled as `List Char`; JavaScript values as the
inductive `JSValue` below.  Code that can throw a `TypeError` (reading a
property of `null`/`undefined`) is modelled in the `Except JSError` monad;
pure code is modelled by plain functions.
-/

/-- Model of a JavaScript runtime value as it flows through the pipeline:
`null`, `undefined`, booleans, (integral) numbers, strings, array-like /
iterable collections (`arr`, e.g. a `NamedNodeMap` of attributes), and plain
non-iterable, non-array-like record objects (`obj`). -/
inductive JSValue where
  | null
  | undefined
  | bool (b : Bool)
  | num (n : Int)
  | str (s : List Char)
  | arr (elems : List JSValue)
  | obj (props : List (List Char × JSValue))

/-- A thrown JavaScript `TypeError`: reading property `key` of a `null` or
`undefined` value (described by `objDesc`). -/
inductive JSError where
  | typeError (objDesc : List Char) (key : List Char)
deriving DecidableEq

/-- Whether the value is `null` or `undefined` (the JS `x == null` test). -/
def isNullish : JSValue → Bool
  | .null => true
  | .undefined => true
  | _ => false

/-- JS truthiness, as used by the `acc && acc[key]` step of `resolvePath`.
(NaN is not representable in this integral model of JS numbers.) -/
def truthy : JSValue → Bool
  | .null => false
  | .undefined => false
  | .bool b => b
  | .num n => n != 0
  | .str s => !(s.isEmpty)
  | .arr _ => true
  | .obj _ => true

/-- The JS `typeof x === "object"` test.  Note the JS quirk that
`typeof null` is `"object"`. -/
def isObjectType : JSValue → Bool
  | .null => true
  | .arr _ => true
  | .obj _ => true
  | _ => false

/-- Own-property lookup on a record: the value stored under `k`, or
`undefined` when the key is absent. -/
def lookupProp (props : List (List Char × JSValue)) (k : List Char) : JSValue :=
  match props.find? (fun p => p.1 = k) with
  | some p => p.2
  | none => .undefined

/-- Digit characters of a natural number, most significant first; the first
argument is recursion fuel (any fuel above the digit count is enough). -/
def natCharsAux : Nat → Nat → List Char
  | 0, _ => []
  | fuel + 1, n =>
    if n < 10 then [Nat.digitChar n]
    else natCharsAux fuel (n / 10) ++ [Nat.digitChar (n % 10)]

/-- Decimal string of a natural number, as JS `String(n)` produces it. -/
def natChars (n : Nat) : List Char := natCharsAux (n + 1) n

/-- Decimal string of an integer, as JS `String(n)` produces it for
integral numbers. -/
def intChars (n : Int) : List Char :=
  if n < 0 then '-' :: natChars (-n).toNat else natChars n.toNat

/-- Is the key a canonical decimal array index (`"0"`, `"1"`, `"12"`, ...)? -/
def isCanonicalIndex (k : List Char) : Bool :=
  !(k == []) && k.all Char.isDigit && (!(k.head? == some '0') || k == ['0'])

/-- Numeric value of a decimal digit string. -/
def charsToNat (k : List Char) : Nat :=
  k.foldl (fun a c => a * 10 + (c.toNat - 48)) 0

mutual

/-- JS `String(v)` conversion for the values of this model: `null` and
`undefined` print their own names, booleans and numbers print their usual
forms, arrays print their elements joined by commas (with nullish elements
printing as empty, as JS `Array.prototype.toString` does), and plain
objects print as `[object Object]`. -/
def jsToString : JSValue → List Char
  | .null => "null".data
  | .undefined => "undefined".data
  | .bool true => "true".data
  | .bool false => "false".data
  | .num n => intChars n
  | .str s => s
  | .obj _ => "[object Object]".data
  | .arr l => jsArrJoin l

/-- Elements of an array joined by `,`, nullish elements printing empty. -/
def jsArrJoin : List JSValue → List Char
  | [] => []
  | [v] => if isNullish v then [] else jsToString v
  | v :: rest => (if isNullish v then [] else jsToString v) ++ ',' :: jsArrJoin rest

end

/-- Property access `v[k]` on a non-nullish value: strings expose `length`
and their characters, arrays expose `length` and their elements, records
expose their own properties; every other access yields `undefined`.
(On `null`/`undefined` JS throws instead; that case is modelled by
`getPropE` and is unreachable here behind the truthiness guards.) -/
def getProp : JSValue → List Char → JSValue
  | .null, _ => .undefined
  | .undefined, _ => .undefined
  | .bool _, _ => .undefined
  | .num _, _ => .undefined
  | .str s, k =>
    if k = "length".data then .num s.length
    else if isCanonicalIndex k then
      match s.get? (charsToNat k) with
      | some c => .str [c]
      | none => .undefined
    else .undefined
  | .arr l, k =>
    if k = "length".data then .num l.length
    else if isCanonicalIndex k then
      match l.get? (charsToNat k) with
      | some v => v
      | none => .undefined
    else .undefined
  | .obj props, k => lookupProp props k

/-- Property access as JS evaluates it: reading any property of `null` or
`undefined` throws a `TypeError`; otherwise it is `getProp`. -/
def getPropE : JSValue → List Char → Except JSError JSValue
  | .null, k => .error (.typeError "null".data k)
  | .undefined, k => .error (.typeError "undefined".data k)
  | .bool b, k => .ok (getProp (.bool b) k)
  | .num n, k => .ok (getProp (.num n) k)
  | .str s, k => .ok (getProp (.str s) k)
  | .arr l, k => .ok (getProp (.arr l) k)
  | .obj props, k => .ok (getProp (.obj props) k)

/-- JS `path.split(".")`: splitting on every dot, keeping empty segments;
the empty string splits to one empty segment. -/
def splitOnDot : List Char → List (List Char)
  | [] => [[]]
  | c :: r =>
    if c = '.' then [] :: splitOnDot r
    else
      match splitOnDot r with
      | [] => [[c]]
      | seg :: rest => (c :: seg) :: rest

/-- One step of `resolvePath`: the reducer `(acc, key) => acc && acc[key]`.
A falsy accumulator short-circuits and is returned as is; a truthy one is
dereferenced.  The property read happens only behind the truthiness guard,
so it is never performed on `null`/`undefined`. -/
def resolveStep (acc : JSValue) (key : List Char) : JSValue :=
  if truthy acc then getProp acc key else acc

/-- The same step in the throwing model of property access. -/
def resolveStepE (acc : JSValue) (key : List Char) : Except JSError JSValue :=
  if truthy acc then getPropE acc key else .ok acc

/-- Folding `resolveStep` over a list of path segments. -/
def resolveSegs (root : JSValue) (segs : List (List Char)) : JSValue :=
  segs.foldl resolveStep root

/-- `resolvePath(root, path)` from the source: split the dotted path and
reduce with `(acc, key) => acc && acc[key]` starting from `root`. -/
def resolvePath (root : JSValue) (path : List Char) : JSValue :=
  resolveSegs root (splitOnDot path)

/-- `resolvePath` in the throwing model of property access; used to state
that the walk never actually throws. -/
def resolvePathE (root : JSValue) (path : List Char) : Except JSError JSValue :=
  (splitOnDot path).foldlM resolveStepE root

example : resolvePath (.obj [("a".data, .obj [("b".data, .num 7)])]) "a.b".data = .num 7 := rfl

example : resolvePath (.obj [("a".data, .null)]) "a.b.c".data = .null := rfl

/-- Whitespace for JS `String.prototype.trim`: ASCII whitespace plus the
common Unicode space characters JS treats as trimmable. -/
def isWsChar (c : Char) : Bool :=
  c = ' ' || c = '\t' || c = '\n' || c = '\x0b' || c = '\x0c' || c = '\r' ||
  c = '\u00A0' || c = '\u2028' || c = '\u2029' || c = '\uFEFF'

/-- Drop leading whitespace. -/
def trimStart (l : List Char) : List Char := l.dropWhile isWsChar

/-- Drop trailing whitespace. -/
def trimEnd (l : List Char) : List Char := (l.reverse.dropWhile isWsChar).reverse

/-- JS `s.trim()`: whitespace removed from both ends. -/
def jsTrim (l : List Char) : List Char := trimEnd (trimStart l)

/-- The joined text of a list of pieces separated by `sep`, as JS
`Array.prototype.join` produces it (empty list joins to the empty string). -/
def joinSep (sep : List Char) : List (List Char) → List Char
  | [] => []
  | [x] => x
  | x :: rest => x ++ sep ++ joinSep sep rest

/-- The regex test `/[",\n]/.test(s)` of `escapeForCSV`: does the text
contain a double quote, a comma or a newline? -/
def hasSpecialChar (s : List Char) : Bool :=
  s.any fun c => c = '"' || c = ',' || c = '\n'

/-- The global replacement `s.replace(/"/g, QQ)` of `escapeForCSV`, doubling
every double quote. -/
def replaceQuote : List Char → List Char
  | [] => []
  | c :: r => if c = '"' then '"' :: '"' :: replaceQuote r else c :: replaceQuote r

/-- `ListofObj_to_DelimitedText.escapeForCSV` from the source: if the text
contains a double quote, comma or newline, double every double quote and
wrap the whole text in double quotes; otherwise return it unchanged. -/
def escapeForCSV (s : List Char) : List Char :=
  if hasSpecialChar s then '"' :: (replaceQuote s ++ ['"']) else s

/-- JS `ToNumber` of a string: trimmed empty text is `0`, an optionally
signed decimal integer parses to its value, anything else is NaN
(modelled as `none`).  The model's numbers are integral, so fractional,
exponent and hex forms are outside it. -/
def strToNumber (s : List Char) : Option Int :=
  match jsTrim s with
  | [] => some 0
  | '+' :: ds =>
    if !ds.isEmpty && ds.all Char.isDigit then some (charsToNat ds) else none
  | '-' :: ds =>
    if !ds.isEmpty && ds.all Char.isDigit then some (-(charsToNat ds : Int)) else none
  | ds => if ds.all Char.isDigit then some (charsToNat ds) else none

/-- JS `ToNumber` on the values of this model; `none` is NaN.  `null` is
`0`, `undefined` is NaN, booleans are `1`/`0`, strings parse as decimal
text, an array converts via its joined string form (`ToPrimitive` is its
`toString`), and a plain record converts via `[object Object]`, i.e. NaN. -/
def jsToNumber : JSValue → Option Int
  | .null => some 0
  | .undefined => none
  | .bool true => some 1
  | .bool false => some 0
  | .num n => some n
  | .str s => strToNumber s
  | .arr l => strToNumber (jsArrJoin l)
  | .obj _ => none

/-- The element count an array-like read derives from a `length` property
value: JS `ToLength` (used by `Array.from`) truncates and clamps NaN and
negative lengths to `0`; the `i < arr.length` loop test of
`CSVlistAttributes` coerces the same values relationally and also runs
`max(length, 0)` iterations, with NaN comparing false.  Both reads agree
on this count. -/
def lengthCount (w : JSValue) : Nat :=
  match jsToNumber w with
  | some n => n.toNat
  | none => 0

/-- JS `Array.from(value)` as `ListofObj_Base.formatValue` uses it on
object-typed values: arrays/iterables give their elements, strings their
characters, and a plain record gives the array-like read of its `length`
property — `lengthCount` many index lookups, each `undefined` when the
index property is absent (so a record with a numeric-coercible positive
`length`, e.g. the string `"2"`, yields that many `undefined`
elements, and the caller then throws reading `.name` of them, as in JS).
`null` and `undefined` never reach this function: `formatValue` filters
them first. -/
def jsArrayFrom : JSValue → List JSValue
  | .arr l => l
  | .str s => s.map fun c => .str [c]
  | .obj props =>
    (List.range (lengthCount (lookupProp props "length".data))).map fun i =>
      lookupProp props (natChars i)
  | _ => []

/-- `ListofObj_Base.formatValue` from the source, in the throwing model:
nullish values format to the empty string; object-typed values are turned
into `name: value` pairs joined by `"; "` (reading `.name`/`.value` of a
nullish element throws, as in JS); anything else is `String(value).trim()`. -/
def formatValueE (value : JSValue) : Except JSError (List Char) :=
  if isNullish value then .ok []
  else if isObjectType value then
    ((jsArrayFrom value).mapM fun v => do
      let nm ← getPropE v "name".data
      let vl ← getPropE v "value".data
      .ok (jsToString nm ++ ": ".data ++ jsToString vl)).map (joinSep "; ".data)
  else .ok (jsTrim (jsToString value))

/-- The inner helper `CSVlistAttributes` of
`ListofObj_to_DelimitedText.formatCSVcellvalues`: the loop
`for i = 0; i < arr.length; i++` concatenating `arr[i].name + ": " +
arr[i].value + ";\n\r"`.  Evaluating `arr.length` throws when `arr` is
`null` (which reaches this helper because `typeof null` is `"object"`);
the loop test coerces the `length` value relationally, so it runs
`lengthCount` iterations: none when `length` is absent or NaN-like, and a
numeric-coercible `length` (a number, `"2"`, `true`, ...) runs that many.
Reading `.name` of a nullish element (including the `undefined` read of a
missing index property) throws, as in JS.  `csvAttrPartE v i` is the body
of iteration `i`: `arr[i].name + ": " + arr[i].value + ";\n\r"`. -/
def csvAttrPartE (v : JSValue) (i : Nat) : Except JSError (List Char) := do
  let nm ← getPropE (getProp v (natChars i)) "name".data
  let vl ← getPropE (getProp v (natChars i)) "value".data
  .ok (jsToString nm ++ ": ".data ++ jsToString vl ++ ";\n\r".data)

/-- See the doc comment right above: the loop itself. -/
def CSVlistAttributesE (v : JSValue) : Except JSError (List Char) := do
  let len ← getPropE v "length".data
  let parts ← (List.range (lengthCount len)).mapM (csvAttrPartE v)
  .ok parts.flatten

/-- `ListofObj_to_DelimitedText.formatCSVcellvalues` from the source:
object-typed cell values (including `null`, by the `typeof` quirk) go
through `CSVlistAttributes`; everything else is `String(v).trim()` — so
`undefined` becomes the text `undefined`, not the empty string. -/
def formatCSVcellvaluesE (v : JSValue) : Except JSError (List Char) :=
  if isObjectType v then CSVlistAttributesE v
  else .ok (jsTrim (jsToString v))

/-- The per-cell pipeline of `ListofObj_to_DelimitedText.render`:
`formatValue(escapeForCSV(formatCSVcellvalues(v)))`. -/
def csvCellTextE (v : JSValue) : Except JSError (List Char) := do
  let t ← formatCSVcellvaluesE v
  formatValueE (.str (escapeForCSV t))

example : csvCellTextE (.str " a,b ".data) = .ok "\"a,b\"".data := rfl

example : formatCSVcellvaluesE .null = .error (.typeError "null".data "length".data) := rfl

example : csvCellTextE .undefined = .ok "undefined".data := rfl

/-- A schema entry value: either a dot-delimited property path or a
single-argument function of the item, exactly the two shapes
`ListofObj_Base.resolveField` distinguishes with its `typeof` test. -/
inductive Resolver where
  | path (p : List Char)
  | fn (f : JSValue → JSValue)

/-- State of a `ListofObj_Base` instance after its constructor ran: the
header (with the implicit `No.` column), the field resolvers, and the
schema and collection the constructor received.  The title starts empty
and is set by `setTitle`. -/
structure ListofObj_Base where
  header : List (List Char)
  fields : List Resolver
  collection : List JSValue
  schema : List (List Char × Resolver)
  title : List Char

/-- The `ListofObj_Base` constructor: `header = ["No."].concat(keys)`,
`fields = values`, and the schema and collection stored as given. -/
def ListofObj_Base.make (schema : List (List Char × Resolver))
    (collection : List JSValue) : ListofObj_Base :=
  { header := "No.".data :: schema.map Prod.fst
    fields := schema.map Prod.snd
    collection := collection
    schema := schema
    title := [] }

/-- `ListofObj_Base.setTitle`. -/
def setTitle (b : ListofObj_Base) (title : List Char) : ListofObj_Base :=
  { b with title := title }

/-- `ListofObj_Base.resolveField`: a function resolver is invoked with the
item as its only argument; a path resolver goes through `resolvePath`. -/
def resolveField (objItem : JSValue) : Resolver → JSValue
  | .fn f => f objItem
  | .path p => resolvePath objItem p

/-- `ListofObj_Base.buildRows`: for each index `i` of the collection, the
row `[i + 1, ...fields.map(resolver => resolveField(collection[i], r))]`. -/
def buildRows (b : ListofObj_Base) : List (List JSValue) :=
  (List.range b.collection.length).map fun i =>
    .num (Int.ofNat (i + 1)) ::
      b.fields.map (resolveField (b.collection.getD i .undefined))

/-- State of a `ListofObj_to_DelimitedText` instance: the base state plus
the two delimiters. -/
structure ListofObj_to_DelimitedText where
  base : ListofObj_Base
  columnDelimiter : List Char
  rowDelimiter : List Char

/-- The `ListofObj_to_DelimitedText` constructor:
`columnDelimiter = options.columnDelimiter ?? ","` and
`rowDelimiter = options.rowDelimiter ?? "<BR>"` (an absent option is
modelled as `none`). -/
def ListofObj_to_DelimitedText.make (schema : List (List Char × Resolver))
    (collection : List JSValue) (columnDelimiterOpt rowDelimiterOpt : Option (List Char)) :
    ListofObj_to_DelimitedText :=
  { base := ListofObj_Base.make schema collection
    columnDelimiter := columnDelimiterOpt.getD ",".data
    rowDelimiter := rowDelimiterOpt.getD "<BR>".data }

/-- `ListofObj_to_DelimitedText.render` from the source: the optional
title line, the header joined by the column delimiter, then each built row
with every cell passed through
`formatValue(escapeForCSV(formatCSVcellvalues(v)))` and the cells joined by
the column delimiter; every emitted line ends with the row delimiter. -/
def ListofObj_to_DelimitedText.render (d : ListofObj_to_DelimitedText) :
    Except JSError (List Char) := do
  let cellRows ← (buildRows d.base).mapM fun row => row.mapM csvCellTextE
  .ok ((if d.base.title = [] then []
        else "<STRONG>".data ++ d.base.title ++ "</STRONG>".data ++ d.rowDelimiter) ++
       (joinSep d.columnDelimiter d.base.header ++ d.rowDelimiter) ++
       (cellRows.map fun cells => joinSep d.columnDelimiter cells ++ d.rowDelimiter).flatten)

/-- `ListofObj_to_Table.tableStyle` with its default header background
color: the inline style block emitted before the table markup. -/
def tableStyle (headerBackgroundColor : List Char) : List Char :=
  "\n      <STYLE>\n        table, th, td \x7b\n          border: 1px solid #9E9E9E;\n          border-collapse: collapse;\n        \x7d\n        th \x7b background: ".data ++
  headerBackgroundColor ++ "; \x7d\n      </STYLE>\n    ".data

/-- `ListofObj_to_Table.createCSVBloblink`: the downloadable-link markup
around the CSV payload.  The blob URL that
`window.URL.createObjectURL` would return is an external collaborator and
is taken as the `csvURL` argument. -/
def createCSVBloblink (csvURL csvFileName : List Char) : List Char :=
  "<A href=\"".data ++ csvURL ++ "\" download=\"".data ++ csvFileName ++
  "\">".data ++ "Download as CSV".data ++ "</A>".data

/-- The result of `ListofObj_to_Table.render`: the returned markup string
and the `objCSV` field the method stores (the CSV sibling text). -/
structure TableRenderOut where
  html : List Char
  objCSV : List Char

/-- `ListofObj_to_Table.render` from the source: optional title block,
style block, one header row of `TH` cells, one `TR` per built row with each
cell through `formatValue`, then a `ListofObj_to_DelimitedText` built over
the same schema and collection with comma and CRLF delimiters is rendered
into `objCSV` and appended as a downloadable link. -/
def ListofObj_to_Table.render (b : ListofObj_Base)
    (csvFileName csvURL : List Char) : Except JSError TableRenderOut := do
  let cellRows ← (buildRows b).mapM fun row => row.mapM formatValueE
  let objCSV ← ListofObj_to_DelimitedText.render
      (ListofObj_to_DelimitedText.make b.schema b.collection
        (some ",".data) (some "\r\n".data))
  .ok { html :=
          (if b.title = [] then []
           else "<H1>".data ++ b.title ++ "</H1>".data) ++
          tableStyle "#FFC107".data ++
          "<TABLE><TR>".data ++
          (b.header.map fun h => "<TH>".data ++ h ++ "</TH>".data).flatten ++
          "</TR>".data ++
          (cellRows.map fun cells =>
            "<TR>".data ++
            (cells.map fun c => "<TD>".data ++ c ++ "</TD>".data).flatten ++
            "</TR>".data).flatten ++
          "</TABLE><BR>".data ++
          createCSVBloblink csvURL csvFileName
        objCSV := objCSV }

example :
    ListofObj_to_DelimitedText.render
      (ListofObj_to_DelimitedText.make [("Label".data, .path "name".data)]
        [.obj [("name".data, .str "A".data)]] (some ",".data) (some "\r\n".data)) =
    .ok "No.,Label\r\n1,A\r\n".data := rfl

/-- Dropping a satisfied head strictly shortens, so a cons list fixed by
`dropWhile` has an unsatisfied head. -/
theorem dropWhile_cons_eq_self_iff (p : Char → Bool) (c : Char) (t : List Char) :
    List.dropWhile p (c :: t) = c :: t ↔ p c = false := by
  constructor
  · intro h
    by_contra hp
    rw [Bool.not_eq_false] at hp
    rw [List.dropWhile_cons, if_pos hp] at h
    have hle : (List.dropWhile p t).length ≤ t.length :=
      (List.dropWhile_suffix p).length_le
    rw [h] at hle
    simp at hle
  · intro h
    simp [List.dropWhile_cons, h]

/-- A list fixed by `dropWhile` stays fixed after trailing elements are
removed by `rdropWhile`. -/
theorem dropWhile_rdropWhile_eq_self (p : Char → Bool) (l : List Char)
    (h : List.dropWhile p l = l) :
    List.dropWhile p (List.rdropWhile p l) = List.rdropWhile p l := by
  cases hr : List.rdropWhile p l with
  | nil => simp
  | cons a s =>
    obtain ⟨t, ht⟩ := List.rdropWhile_prefix p l
    rw [hr] at ht
    have hl : l = a :: (s ++ t) := by rw [← ht]; simp
    rw [hl] at h
    have hpa : p a = false := (dropWhile_cons_eq_self_iff p a (s ++ t)).mp h
    simp [List.dropWhile_cons, hpa]

/-- JS `trim` is idempotent. -/
theorem trimEnd_eq_rdropWhile (l : List Char) :
    trimEnd l = List.rdropWhile isWsChar l := rfl

theorem jsTrim_idem (l : List Char) : jsTrim (jsTrim l) = jsTrim l := by
  have hx : List.dropWhile isWsChar (List.dropWhile isWsChar l) =
      List.dropWhile isWsChar l := List.dropWhile_idempotent isWsChar l
  unfold jsTrim trimStart
  rw [trimEnd_eq_rdropWhile, trimEnd_eq_rdropWhile,
    dropWhile_rdropWhile_eq_self isWsChar _ hx,
    List.rdropWhile_idempotent]

/-- A text wrapped in double quotes is fixed by JS `trim`: the quote is not
whitespace on either end. -/
theorem jsTrim_quoted (m : List Char) :
    jsTrim ('"' :: (m ++ ['"'])) = '"' :: (m ++ ['"']) := by
  have hq : isWsChar '"' = false := by decide
  unfold jsTrim trimStart
  rw [List.dropWhile_cons, hq, trimEnd_eq_rdropWhile]
  show List.rdropWhile isWsChar (('"' :: m) ++ ['"']) = _
  rw [List.rdropWhile_concat_neg isWsChar ('"' :: m) '"' (by simp [hq])]
  simp

/-- The escaped text is fixed by JS `trim` whenever the input is itself
trimmed or gets quoted by the escaping. -/
theorem jsTrim_escapeForCSV (t : List Char)
    (h : jsTrim t = t ∨ hasSpecialChar t = true) :
    jsTrim (escapeForCSV t) = escapeForCSV t := by
  unfold escapeForCSV
  by_cases hs : hasSpecialChar t = true
  · rw [if_pos hs]
    exact jsTrim_quoted (replaceQuote t)
  · rw [if_neg hs]
    rcases h with h | h
    · exact h
    · exact absurd h hs

/-- Every element of a successful `mapM` over `Except` comes from a
successful application of the mapped function to some list element. -/
theorem exceptMapM_ok_mem {α β : Type} (f : α → Except JSError β) :
    ∀ (l : List α) (out : List β), l.mapM f = .ok out →
      ∀ b ∈ out, ∃ a ∈ l, f a = .ok b := by
  intro l
  induction l with
  | nil =>
    intro out h b hb
    have h2 : (Except.ok ([] : List β) : Except JSError (List β)) = .ok out := h
    injection h2 with h3
    subst h3
    simp at hb
  | cons a r ih =>
    intro out h b hb
    rw [List.mapM_cons] at h
    cases hfa : f a with
    | error e =>
      rw [hfa] at h
      have h2 : (Except.error e : Except JSError (List β)) = .ok out := h
      cases h2
    | ok x =>
      rw [hfa] at h
      cases hm : r.mapM f with
      | error e =>
        rw [hm] at h
        have h2 : (Except.error e : Except JSError (List β)) = .ok out := h
        cases h2
      | ok xs =>
        rw [hm] at h
        have h2 : (Except.ok (x :: xs) : Except JSError (List β)) = .ok out := h
        injection h2 with h3
        subst h3
        rcases List.mem_cons.mp hb with hbx | hbs
        · exact ⟨a, List.mem_cons_self a r, by rw [hfa, hbx]⟩
        · obtain ⟨a2, ha2, hfa2⟩ := ih xs hm b hbs
          exact ⟨a2, List.mem_cons_of_mem a ha2, hfa2⟩

/-- Every successfully produced attribute chunk ends in the `";\n\r"`
terminator, so it contains a newline. -/
theorem csvAttrPartE_newline (v : JSValue) (i : Nat) (p : List Char)
    (h : csvAttrPartE v i = .ok p) : '\n' ∈ p := by
  unfold csvAttrPartE at h
  cases h1 : getPropE (getProp v (natChars i)) "name".data with
  | error e =>
    rw [h1] at h
    have h2 : (Except.error e : Except JSError (List Char)) = .ok p := h
    cases h2
  | ok nm =>
    rw [h1] at h
    cases h2 : getPropE (getProp v (natChars i)) "value".data with
    | error e =>
      rw [h2] at h
      have h3 : (Except.error e : Except JSError (List Char)) = .ok p := h
      cases h3
    | ok vl =>
      rw [h2] at h
      have h3 : (Except.ok (jsToString nm ++ ": ".data ++ jsToString vl ++ ";\n\r".data) :
          Except JSError (List Char)) = .ok p := h
      injection h3 with h4
      rw [← h4]
      exact List.mem_append.mpr (Or.inr (by decide))

/-- The text produced by `CSVlistAttributes` is either already trimmed
(the empty text, when the loop never runs) or contains a newline. -/
theorem CSVlistAttributesE_shape (v : JSValue) (t : List Char)
    (h : CSVlistAttributesE v = .ok t) :
    jsTrim t = t ∨ hasSpecialChar t = true := by
  unfold CSVlistAttributesE at h
  cases hlen : getPropE v "length".data with
  | error e =>
    rw [hlen] at h
    have h2 : (Except.error e : Except JSError (List Char)) = .ok t := h
    cases h2
  | ok len =>
    rw [hlen] at h
    replace h : ((List.range (lengthCount len)).mapM (csvAttrPartE v) >>=
        fun parts => Except.ok parts.flatten) = .ok t := h
    cases hm : (List.range (lengthCount len)).mapM (csvAttrPartE v) with
    | error e =>
      rw [hm] at h
      have h2 : (Except.error e : Except JSError (List Char)) = .ok t := h
      cases h2
    | ok parts =>
      rw [hm] at h
      have h2 : (Except.ok parts.flatten : Except JSError (List Char)) = .ok t := h
      injection h2 with h3
      subst h3
      cases parts with
      | nil => left; rfl
      | cons p ps =>
        right
        obtain ⟨i, _, hip⟩ :=
          exceptMapM_ok_mem (csvAttrPartE v) (List.range (lengthCount len)) (p :: ps) hm p
            (List.mem_cons_self p ps)
        have hnl : '\n' ∈ (p :: ps).flatten :=
          List.mem_flatten.mpr ⟨p, List.mem_cons_self p ps, csvAttrPartE_newline v i p hip⟩
        exact List.any_eq_true.mpr ⟨'\n', hnl, by decide⟩

/-- The coerced cell text of the CSV path is either already trimmed or
contains a character that forces quoting. -/
theorem formatCSVcellvaluesE_shape (v : JSValue) (t : List Char)
    (h : formatCSVcellvaluesE v = .ok t) :
    jsTrim t = t ∨ hasSpecialChar t = true := by
  unfold formatCSVcellvaluesE at h
  by_cases ho : isObjectType v = true
  · rw [if_pos ho] at h
    exact CSVlistAttributesE_shape v t h
  · rw [if_neg ho] at h
    injection h with h2
    subst h2
    left
    exact jsTrim_idem _

/-- Claim C2: in the CSV export pipeline the escaping is, extensionally,
the last transformation: whenever the value-to-text coercion
`formatCSVcellvalues` succeeds with text `t`, the final cell text produced
by the per-cell pipeline of `ListofObj_to_DelimitedText.render` equals
`escapeForCSV t` exactly — the `formatValue` call that the source applies
after the escaping only re-trims, and the escaped text is already trimmed,
so nothing changes after the escape. -/
theorem escape_applied_last (v : JSValue) (t : List Char)
    (h : formatCSVcellvaluesE v = .ok t) :
    csvCellTextE v = .ok (escapeForCSV t) := by
  unfold csvCellTextE
  rw [h]
  show formatValueE (.str (escapeForCSV t)) = .ok (escapeForCSV t)
  show Except.ok (jsTrim (escapeForCSV t)) = .ok (escapeForCSV t)
  exact congrArg Except.ok
    (jsTrim_escapeForCSV t (formatCSVcellvaluesE_shape v t h))

/-- Witness for C2 at a concrete cell value containing a comma. -/
theorem escape_applied_last_witness :
    formatCSVcellvaluesE (.str "a,b".data) = .ok "a,b".data ∧
    csvCellTextE (.str "a,b".data) = .ok (escapeForCSV "a,b".data) :=
  ⟨rfl, escape_applied_last (.str "a,b".data) "a,b".data rfl⟩

/-- The doubling of embedded double quotes as the spec words it ("double
every embedded double quote"), written independently of the source's
global-regex-replace model for comparison. -/
def specDoubleQuotes (s : List Char) : List Char :=
  (s.map fun c => if c = '"' then ['"', '"'] else [c]).flatten

/-- The source's global replace of `"` by `""` agrees with the spec-side
per-character doubling. -/
theorem replaceQuote_eq_spec (s : List Char) : replaceQuote s = specDoubleQuotes s := by
  induction s with
  | nil => rfl
  | cons c r ih =>
    by_cases hc : c = '"'
    · simp [replaceQuote, specDoubleQuotes, hc] at ih ⊢
      exact ih
    · simp [replaceQuote, specDoubleQuotes, hc] at ih ⊢
      exact ih

/-- Claim C7: `escapeForCSV` wraps in double quotes and doubles embedded
double quotes exactly when the text contains a double quote, comma or
newline, returns other text unchanged, and on the spec's concrete example
maps `a"b,c` to `"a""b,c"`. -/
theorem escapeForCSV_correct :
    (∀ t, hasSpecialChar t = true →
      escapeForCSV t = '"' :: (specDoubleQuotes t ++ ['"'])) ∧
    (∀ t, hasSpecialChar t = false → escapeForCSV t = t) ∧
    escapeForCSV "a\"b,c".data = "\"a\"\"b,c\"".data := by
  refine ⟨fun t h => ?_, fun t h => ?_, by decide⟩
  · unfold escapeForCSV
    rw [if_pos h, replaceQuote_eq_spec]
  · unfold escapeForCSV
    rw [if_neg (by simp [h])]

/-- Witness for C7 at the spec's example input. -/
theorem escapeForCSV_correct_witness :
    hasSpecialChar "a\"b,c".data = true ∧
    escapeForCSV "a\"b,c".data = '"' :: (specDoubleQuotes "a\"b,c".data ++ ['"']) :=
  ⟨by decide, escapeForCSV_correct.1 "a\"b,c".data (by decide)⟩

/-- Claim C9: on text free of double quotes, commas and newlines the
encoder is idempotent, because such text is returned unchanged. -/
theorem escapeForCSV_idem_on_safe (t : List Char) (h : hasSpecialChar t = false) :
    escapeForCSV (escapeForCSV t) = escapeForCSV t := by
  have h1 : escapeForCSV t = t := by
    unfold escapeForCSV
    rw [if_neg (by simp [h])]
  rw [h1, h1]

/-- Witness for C9 at a safe concrete text. -/
theorem escapeForCSV_idem_on_safe_witness :
    hasSpecialChar "abc".data = false ∧
    escapeForCSV (escapeForCSV "abc".data) = escapeForCSV "abc".data :=
  ⟨by decide, escapeForCSV_idem_on_safe "abc".data (by decide)⟩

/-- A truthy value is not nullish. -/
theorem truthy_not_nullish (v : JSValue) (h : truthy v = true) :
    isNullish v = false := by
  cases v <;> simp_all [truthy, isNullish]

/-- A nullish value is not truthy. -/
theorem nullish_not_truthy (v : JSValue) (h : isNullish v = true) :
    truthy v = false := by
  cases v <;> simp_all [truthy, isNullish]

/-- On non-nullish values the throwing property access returns normally. -/
theorem getPropE_ok (v : JSValue) (k : List Char) (h : isNullish v = false) :
    getPropE v k = .ok (getProp v k) := by
  cases v <;> simp_all [isNullish, getPropE]

/-- Each `resolvePath` step returns normally: the truthiness guard keeps the
property read away from nullish accumulators. -/
theorem resolveStepE_ok (acc : JSValue) (key : List Char) :
    resolveStepE acc key = .ok (resolveStep acc key) := by
  unfold resolveStepE resolveStep
  by_cases h : truthy acc = true
  · rw [if_pos h, if_pos h]
    exact getPropE_ok acc key (truthy_not_nullish acc h)
  · rw [if_neg h, if_neg h]

/-- The whole segment walk returns normally, with the value of the pure
walk. -/
theorem resolveSegsE_ok (segs : List (List Char)) :
    ∀ root : JSValue, segs.foldlM resolveStepE root = .ok (resolveSegs root segs) := by
  induction segs with
  | nil => intro root; rfl
  | cons k r ih =>
    intro root
    rw [List.foldlM_cons, resolveStepE_ok]
    show r.foldlM resolveStepE (resolveStep root k) = _
    rw [ih (resolveStep root k)]
    rfl

/-- A nullish accumulator is left untouched by any further segments. -/
theorem nullish_foldl_const (l2 : List (List Char)) :
    ∀ acc : JSValue, isNullish acc = true →
      List.foldl resolveStep acc l2 = acc := by
  induction l2 with
  | nil => intro acc _; rfl
  | cons k r ih =>
    intro acc h
    rw [List.foldl_cons]
    have hstep : resolveStep acc k = acc := by
      unfold resolveStep
      rw [if_neg (by simp [nullish_not_truthy acc h])]
    rw [hstep]
    exact ih acc h

/-- Claim C4: `resolvePath` walks the object graph segment by segment and
returns the walked value without ever throwing (the throwing model of
property access agrees with the pure walk, so no property of a missing
value is ever read), and a nullish intermediate short-circuits: all later
segments leave the nullish value unchanged.  The walk is pure structural
property lookup on the embedded values — by construction the path is never
evaluated as code. -/
theorem resolvePath_safe (root : JSValue) (path : List Char) :
    resolvePathE root path = .ok (resolvePath root path) ∧
    ∀ l1 l2 : List (List Char), isNullish (resolveSegs root l1) = true →
      resolveSegs root (l1 ++ l2) = resolveSegs root l1 := by
  constructor
  · exact resolveSegsE_ok (splitOnDot path) root
  · intro l1 l2 h
    unfold resolveSegs
    rw [List.foldl_append]
    exact nullish_foldl_const l2 _ h

/-- Witness for C4: a path whose first segment resolves to `null`
short-circuits past the remaining segment. -/
theorem resolvePath_safe_witness :
    isNullish (resolveSegs (.obj [("a".data, .null)]) ["a".data]) = true ∧
    resolveSegs (.obj [("a".data, .null)]) (["a".data] ++ ["b".data]) =
      resolveSegs (.obj [("a".data, .null)]) ["a".data] :=
  ⟨rfl, (resolvePath_safe (.obj [("a".data, .null)]) "a.b".data).2
    ["a".data] ["b".data] rfl⟩

/-- Bind on a successful `Except` computation just applies the
continuation. -/
theorem exceptOk_bind {α β : Type} (a : α) (f : α → Except JSError β) :
    (Except.ok a >>= f) = f a := rfl

/-- Claim C6: `buildRows` produces exactly one row per collection item (no
silent filtering), and the first element of the `i`-th row is the 1-based
ordinal `i + 1`. -/
theorem buildRows_length_and_ordinals (schema : List (List Char × Resolver))
    (collection : List JSValue) :
    (buildRows (ListofObj_Base.make schema collection)).length = collection.length ∧
    ∀ (i : Nat) (row : List JSValue),
      (buildRows (ListofObj_Base.make schema collection))[i]? = some row →
      row.head? = some (.num (Int.ofNat (i + 1))) := by
  constructor
  · simp [buildRows, ListofObj_Base.make]
  · intro i row h
    unfold buildRows at h
    rw [List.getElem?_map] at h
    by_cases hi : i < (ListofObj_Base.make schema collection).collection.length
    · rw [List.getElem?_range hi] at h
      rw [Option.map_some'] at h
      injection h with h2
      rw [← h2]
      rfl
    · rw [List.getElem?_eq_none (by simpa using Nat.le_of_not_lt hi)] at h
      exact Option.noConfusion h

/-- Witness for C6 at a one-item collection. -/
theorem buildRows_length_and_ordinals_witness :
    (buildRows (ListofObj_Base.make [("Label".data, .path "name".data)]
      [.obj [("name".data, .str "A".data)]]))[0]? =
      some [.num (Int.ofNat 1), .str "A".data] ∧
    ([JSValue.num (Int.ofNat 1), .str "A".data] : List JSValue).head? =
      some (.num (Int.ofNat (0 + 1))) :=
  ⟨rfl, (buildRows_length_and_ordinals [("Label".data, .path "name".data)]
    [.obj [("name".data, .str "A".data)]]).2 0
    [JSValue.num (Int.ofNat 1), .str "A".data] rfl⟩

/-- Claim C8: the constructor prepends the implicit `No.` ordinal column in
front of the schema's labels, in schema order; the rendered header line of
the delimited sink is exactly that list joined by the column delimiter. -/
theorem header_no_prepended (schema : List (List Char × Resolver))
    (collection : List JSValue) :
    (ListofObj_Base.make schema collection).header =
      "No.".data :: schema.map Prod.fst ∧
    (ListofObj_Base.make schema collection).header.head? = some "No.".data ∧
    ListofObj_to_DelimitedText.render
      (ListofObj_to_DelimitedText.make schema [] (some ",".data) (some "\r\n".data)) =
      .ok (joinSep ",".data ("No.".data :: schema.map Prod.fst) ++ "\r\n".data) ∧
    (ListofObj_Base.make [("Label".data, Resolver.path "name".data)]
      [.obj [("name".data, .str "A".data)]]).header = ["No.".data, "Label".data] := by
  refine ⟨rfl, rfl, ?_, rfl⟩
  show (Except.ok ([] : List (List (List Char))) >>= fun cellRows =>
    Except.ok ((if ([] : List Char) = [] then []
      else "<STRONG>".data ++ ([] : List Char) ++ "</STRONG>".data ++ "\r\n".data) ++
      (joinSep ",".data ("No.".data :: schema.map Prod.fst) ++ "\r\n".data) ++
      (cellRows.map fun cells => joinSep ",".data cells ++ "\r\n".data).flatten)) = _
  simp [exceptOk_bind]

/-- Claim C10: the shared cell formatter treats every non-null object-typed
value as a name/value-pair collection; for every non-null object that is
not array-like and not iterable — a plain record, such as a record with the
single property `a`, whose `length` property yields no elements (absent,
NaN-like, or non-positive under the JS length coercion: `lengthCount`
zero) — `Array.from` yields no elements, so `formatValue` returns the
empty string, never the object's string form `[object Object]`: the scalar
string-and-trim branch is never reached for objects.  (A record whose
`length` does coerce to a positive count is array-like; on it
`formatValue` throws reading `.name` of the `undefined` elements rather
than returning the string form, so the scalar branch stays unreachable for
objects there too.) -/
theorem formatValue_plain_object_empty (props : List (List Char × JSValue))
    (h : lengthCount (lookupProp props "length".data) = 0) :
    formatValueE (.obj props) = .ok [] ∧
    jsToString (.obj props) = "[object Object]".data := by
  refine ⟨?_, rfl⟩
  have hj : jsArrayFrom (.obj props) = [] := by
    simp only [jsArrayFrom, h]
    rfl
  show ((jsArrayFrom (.obj props)).mapM fun v => do
      let nm ← getPropE v "name".data
      let vl ← getPropE v "value".data
      Except.ok (jsToString nm ++ ": ".data ++ jsToString vl)).map
        (joinSep "; ".data) = .ok []
  rw [hj]
  rfl

/-- Witness for C10 at the plain record with the single property `a`. -/
theorem formatValue_plain_object_empty_witness :
    lengthCount (lookupProp [("a".data, JSValue.num 1)] "length".data) = 0 ∧
    formatValueE (.obj [("a".data, JSValue.num 1)]) = .ok [] :=
  ⟨rfl, (formatValue_plain_object_empty [("a".data, JSValue.num 1)] rfl).1⟩

/-- Claim C1 as the code actually behaves: in the table sink nullish cell
values format to the empty string, but in the delimited-text/CSV sink the
cell path `formatCSVcellvalues` throws a `TypeError` on a `null` cell
(because `typeof null` is `"object"`, `null` is sent into
`CSVlistAttributes`, which reads `null.length`), and an `undefined` cell
renders as the text `undefined` rather than the empty string, so a whole
report over a collection with one absent attribute fails to render. -/
theorem csv_sink_crashes_on_null_cell :
    formatCSVcellvaluesE .null = .error (.typeError "null".data "length".data) ∧
    csvCellTextE .undefined = .ok "undefined".data ∧
    ListofObj_to_DelimitedText.render
      (ListofObj_to_DelimitedText.make [("Label".data, .path "name".data)]
        [.obj [("name".data, .null)]] (some ",".data) (some "\r\n".data)) =
      .error (.typeError "null".data "length".data) ∧
    formatValueE .null = .ok [] ∧
    formatValueE .undefined = .ok [] :=
  ⟨rfl, rfl, rfl, rfl, rfl⟩

/-- Counterexample to C3: with a pipe column delimiter and the default
`<BR>` row delimiter — the plain-text display mode, where the caller did
not choose the CSV encoder — the renderer still emits the comma-containing
cell quoted, not unescaped. -/
theorem render_escapes_without_csv_choice :
    ListofObj_to_DelimitedText.render
      (ListofObj_to_DelimitedText.make [("X".data, .path "x".data)]
        [.obj [("x".data, .str "a,b".data)]] (some "|".data) none) =
      .ok "No.|X<BR>1|\"a,b\"<BR>".data ∧
    "No.|X<BR>1|\"a,b\"<BR>".data ≠ "No.|X<BR>1|a,b<BR>".data :=
  ⟨rfl, by decide⟩

/-- Claim C3 amended: the delimited-text renderer is delimiter-configurable,
but CSV escaping is hardcoded inside `render`: for every choice of column
and row delimiter, each cell passes through `escapeForCSV`, with no way for
the caller to opt out. -/
theorem render_escaping_hardcoded (colD rowD : List Char) :
    ListofObj_to_DelimitedText.render
      (ListofObj_to_DelimitedText.make [("X".data, .path "x".data)]
        [.obj [("x".data, .str "a,b".data)]] (some colD) (some rowD)) =
      .ok ("No.".data ++ colD ++ "X".data ++ rowD ++
           ("1".data ++ colD ++ escapeForCSV "a,b".data ++ rowD)) := by
  have hesc : escapeForCSV "a,b".data = "\"a,b\"".data := rfl
  rw [hesc]
  show (Except.ok [["1".data, "\"a,b\"".data]] >>= fun cellRows =>
    Except.ok ((if ([] : List Char) = [] then []
      else "<STRONG>".data ++ ([] : List Char) ++ "</STRONG>".data ++ rowD) ++
      (joinSep colD ["No.".data, "X".data] ++ rowD) ++
      (cellRows.map fun cells => joinSep colD cells ++ rowD).flatten)) = _
  rw [exceptOk_bind]
  simp [joinSep]

/-- Claim C5: whenever the table renderer completes, the CSV text it stored
as its downloadable sibling — built over the table's own schema and
collection with comma column delimiter and CRLF row delimiter — is exactly
the text a standalone delimited-text render of the same schema and
collection with the same delimiters produces.  (Resolvers in the embedding
are pure functions, so both renders are deterministic.) -/
theorem table_csv_sibling_matches (schema : List (List Char × Resolver))
    (collection : List JSValue) (title csvFileName csvURL : List Char)
    (out : TableRenderOut)
    (h : ListofObj_to_Table.render (setTitle (ListofObj_Base.make schema collection) title)
      csvFileName csvURL = .ok out) :
    ListofObj_to_DelimitedText.render
      (ListofObj_to_DelimitedText.make schema collection
        (some ",".data) (some "\r\n".data)) = .ok out.objCSV := by
  unfold ListofObj_to_Table.render at h
  cases hA : (buildRows (setTitle (ListofObj_Base.make schema collection) title)).mapM
      (fun row => row.mapM formatValueE) with
  | error e =>
    rw [hA] at h
    have h2 : (Except.error e : Except JSError TableRenderOut) = .ok out := h
    cases h2
  | ok cellRows =>
    rw [hA] at h
    rw [exceptOk_bind] at h
    cases hB : ListofObj_to_DelimitedText.render
        (ListofObj_to_DelimitedText.make
          (setTitle (ListofObj_Base.make schema collection) title).schema
          (setTitle (ListofObj_Base.make schema collection) title).collection
          (some ",".data) (some "\r\n".data)) with
    | error e =>
      rw [hB] at h
      have h2 : (Except.error e : Except JSError TableRenderOut) = .ok out := h
      cases h2
    | ok csv =>
      rw [hB] at h
      rw [exceptOk_bind] at h
      injection h with h2
      rw [← h2]
      exact hB

/-- Witness for C5: a concrete one-column, one-item report; the table
render completes and its CSV sibling equals the standalone render. -/
theorem table_csv_sibling_matches_witness :
    ListofObj_to_DelimitedText.render
      (ListofObj_to_DelimitedText.make [("Label".data, Resolver.path "name".data)]
        [.obj [("name".data, .str "A".data)]] (some ",".data) (some "\r\n".data)) =
      .ok "No.,Label\r\n1,A\r\n".data :=
  table_csv_sibling_matches [("Label".data, Resolver.path "name".data)]
    [.obj [("name".data, .str "A".data)]] "T".data "download.csv".data
    "blob:demo".data ⟨_, _⟩ rfl
